import Mathlib

/-!
# Swap page I/O (`mm/page_io.c`, nvm-swap variant)

A shallow embedding of the swap-out / swap-in entry points of `mm/page_io.c`
together with the byte-addressable (`CONFIG_MEMSWAP`) backend.

Pointers are keys into explicit state: a `struct page *` is an index into
`State.pages`, a `struct swap_info_struct *` an index into `State.swap_info`,
and the arrays hanging off a swap device (`slot_map`, `slot_age`, `heap`,
`index`) are functions from an array index to the stored value.  Every kernel
primitive that the temporal claims talk about appends an `Event` to
`State.trace`, oldest event first.
-/

namespace PageIo

/-! ## Data model -/

/-- The fields of `struct page` that `page_io.c` reads or writes: the page flag
bits, the `private` word (the swap entry value) and the page's contents. -/
structure page where
  locked : Bool
  dirty : Bool
  writeback : Bool
  uptodate : Bool
  error : Bool
  reclaim : Bool
  private_val : Nat
  data : List Nat
deriving DecidableEq, Repr

/-- The two completion callbacks that `get_swap_bio` is given in this file. -/
inductive bio_end_io_t where
  | end_swap_bio_write
  | end_swap_bio_read
deriving DecidableEq, Repr

/-- The fields of `struct bio` touched by `get_swap_bio` and the completions;
`bv_page`, `bv_len`, `bv_offset` are the members of `bi_io_vec[0]`. -/
structure bio where
  bi_sector : Nat
  bi_bdev : Nat
  bi_flags : Nat
  bv_page : Nat
  bv_len : Nat
  bv_offset : Nat
  bi_vcnt : Nat
  bi_idx : Nat
  bi_size : Nat
  bi_end_io : bio_end_io_t
deriving DecidableEq, Repr

/-- The fields of `struct swap_info_struct` used by the byte-addressable
backend.  The arrays are pointers in C and are read here as index-to-value
maps; `max` is the number of slots.  The structure is declared in
`linux/swap.h`, so the element type of `slot_age` is not visible from
`page_io.c`: an age is stored as an unsigned machine integer whose width is the
parameter `Env.SLOT_AGE_BITS`, and the increment wraps at that width. -/
structure swap_info_struct where
  flags : Nat
  max : Nat
  start_pfn : Nat
  slot_map : Nat → Nat
  slot_age : Nat → Nat
  heap : Nat → Nat
  index : Nat → Nat

/-- Observable steps, recorded in program order. -/
inductive Event where
  | writeback_set (pg : Nat)
  | writeback_end (pg : Nat)
  | unlock (pg : Nat)
  | copy_to_slot (pg : Nat) (addr : Nat)
  | copy_from_slot (pg : Nat) (addr : Nat)
  | submit (rw : Nat) (b : bio)
  | printk_write_error (bdev : Nat) (sector : Nat)
  | printk_read_error (bdev : Nat) (sector : Nat)
deriving DecidableEq, Repr

/-- The event counters passed to `count_vm_event` in this file. -/
inductive vm_event_item where
  | PSWPIN
  | PSWPOUT
deriving DecidableEq, Repr

/-- The allocation contexts used in this file (`GFP_NOIO` for write-out,
`GFP_KERNEL` for read-in). -/
inductive gfp_t where
  | GFP_NOIO_flags
  | GFP_KERNEL_flags
deriving DecidableEq, Repr

/-- Values of `enum writeback_sync_modes`. -/
inductive writeback_sync_modes where
  | WB_SYNC_NONE
  | WB_SYNC_ALL
deriving DecidableEq, Repr

/-- The one field of `struct writeback_control` read by `swap_writepage`. -/
structure writeback_control where
  sync_mode : writeback_sync_modes
deriving DecidableEq, Repr

/-- Kernel state seen by `page_io.c`: the page structures, the swap devices,
the direct-mapped slot memory (one page-sized region per address), the two
file-local counters, the vm event counters and the event trace.  A page's own
contents are kept in its `page` record (what `kmap_atomic(page)` maps); the
slot regions of a byte-addressable device are reserved memory, disjoint from
the frames of swappable pages. -/
structure State where
  pages : Nat → page
  swap_info : Nat → swap_info_struct
  mem : Nat → List Nat
  swap_outs : Int
  swap_ins : Int
  pswpout : Nat
  pswpin : Nat
  trace : List Event

/-- Everything `page_io.c` takes from headers and other translation units:
configuration constants, the swap-entry decoders, and the outcome of the
external calls `try_to_free_swap`, `map_swap_page` and `bio_alloc`. -/
structure Env where
  CONFIG_MEMSWAP : Bool
  PAGE_SHIFT : Nat
  BITS_PER_LONG : Nat
  SECTOR_BITS : Nat
  SLOT_AGE_BITS : Nat
  SWP_MEM : Nat
  REQ_SYNC : Nat
  BIO_UPTODATE : Nat
  swp_type : Nat → Nat
  swp_offset : Nat → Nat
  try_to_free_swap : State → Nat → Bool
  map_swap_page : State → Nat → Nat × Nat
  bio_alloc : State → gfp_t → Nat → Option bio

/-! ## Constants -/

/-- Data direction `READ` of `linux/fs.h`. -/
def READ : Nat := 0

/-- Data direction `WRITE` of `linux/fs.h`. -/
def WRITE : Nat := 1

/-- Error number `ENOMEM`. -/
def ENOMEM : Int := 12

/-- Size of a page in bytes, `1 << PAGE_SHIFT`. -/
def PAGE_SIZE (env : Env) : Nat := 1 <<< env.PAGE_SHIFT

/-- Two's-complement wrap of a value into the range of a 32-bit `int`. -/
def wrap_int (x : Int) : Int := (x + 2 ^ 31) % 2 ^ 32 - 2 ^ 31

/-! ## Page-flag primitives -/

/-- Apply `f` to the page structure at address `pg`. -/
def update_page (s : State) (pg : Nat) (f : page → page) : State :=
  { s with pages := Function.update s.pages pg (f (s.pages pg)) }

/-- Append an event to the trace. -/
def emit (s : State) (e : Event) : State :=
  { s with trace := s.trace ++ [e] }

/-- Modelled from the spec: `unlock_page` of the page-ownership contract (its
body is in `mm/filemap.c`); it clears the `locked` flag. -/
def unlock_page (s : State) (pg : Nat) : State :=
  emit (update_page s pg (fun p => { p with locked := false })) (Event.unlock pg)

/-- Modelled from the spec: `set_page_dirty` of the page-ownership contract;
it sets the `dirty` flag. -/
def set_page_dirty (s : State) (pg : Nat) : State :=
  update_page s pg (fun p => { p with dirty := true })

/-- Modelled from the spec: `set_page_writeback` of the page-ownership
contract; it sets the `writeback` flag. -/
def set_page_writeback (s : State) (pg : Nat) : State :=
  emit (update_page s pg (fun p => { p with writeback := true })) (Event.writeback_set pg)

/-- Modelled from the spec: `end_page_writeback` of the page-ownership
contract; it clears the `writeback` flag. -/
def end_page_writeback (s : State) (pg : Nat) : State :=
  emit (update_page s pg (fun p => { p with writeback := false })) (Event.writeback_end pg)

/-- Page-flag setter `SetPageError`. -/
def SetPageError (s : State) (pg : Nat) : State :=
  update_page s pg (fun p => { p with error := true })

/-- Page-flag clearer `ClearPageReclaim`. -/
def ClearPageReclaim (s : State) (pg : Nat) : State :=
  update_page s pg (fun p => { p with reclaim := false })

/-- Page-flag setter `SetPageUptodate`. -/
def SetPageUptodate (s : State) (pg : Nat) : State :=
  update_page s pg (fun p => { p with uptodate := true })

/-- Page-flag clearer `ClearPageUptodate`. -/
def ClearPageUptodate (s : State) (pg : Nat) : State :=
  update_page s pg (fun p => { p with uptodate := false })

/-- Page-flag test `PageLocked`. -/
def PageLocked (s : State) (pg : Nat) : Bool := (s.pages pg).locked

/-- Page-flag test `PageUptodate`. -/
def PageUptodate (s : State) (pg : Nat) : Bool := (s.pages pg).uptodate

/-- Accessor `page_private`. -/
def page_private (s : State) (pg : Nat) : Nat := (s.pages pg).private_val

/-- Bit test `test_bit(nr, &word)`. -/
def test_bit (nr : Nat) (word : Nat) : Bool := Nat.testBit word nr

/-- Event accounting `count_vm_event`. -/
def count_vm_event (s : State) (item : vm_event_item) : State :=
  match item with
  | vm_event_item.PSWPIN => { s with pswpin := s.pswpin + 1 }
  | vm_event_item.PSWPOUT => { s with pswpout := s.pswpout + 1 }

/-- Block-layer entry `submit_bio`: the descriptor is handed over, nothing
else changes until a completion runs. -/
def submit_bio (s : State) (rw : Nat) (b : bio) : State :=
  emit s (Event.submit rw b)

/-! ## Swap count system calls -/

/-- System call `reset_swap_outs`. -/
def reset_swap_outs (s : State) : State × Int :=
  ({ s with swap_outs := 0, swap_ins := 0 }, 0)

/-- System call `print_swap_outs`. -/
def print_swap_outs (s : State) : Int := s.swap_outs

/-- System call `print_swap_ins`. -/
def print_swap_ins (s : State) : Int := s.swap_ins

/-! ## Block backend -/

/-- Descriptor construction `get_swap_bio`: `none` is the `NULL` returned when
`bio_alloc` fails. -/
def get_swap_bio (env : Env) (s : State) (gfp_flags : gfp_t) (pg : Nat)
    (end_io : bio_end_io_t) : Option bio :=
  match env.bio_alloc s gfp_flags 1 with
  | some b =>
    let m := env.map_swap_page s pg
    some { b with
      bi_sector := (m.1 <<< (env.PAGE_SHIFT - 9)) % 2 ^ env.SECTOR_BITS
      bi_bdev := m.2
      bv_page := pg
      bv_len := PAGE_SIZE env
      bv_offset := 0
      bi_vcnt := 1
      bi_idx := 0
      bi_size := PAGE_SIZE env
      bi_end_io := end_io }
  | none => none

/-- Write completion `end_swap_bio_write`.  The closing `bio_put` releases the
descriptor, which the state does not track. -/
def end_swap_bio_write (env : Env) (s : State) (b : bio) : State :=
  let uptodate := test_bit env.BIO_UPTODATE b.bi_flags
  let pg := b.bv_page
  let s :=
    if !uptodate then
      let s := SetPageError s pg
      let s := set_page_dirty s pg
      let s := emit s (Event.printk_write_error b.bi_bdev b.bi_sector)
      ClearPageReclaim s pg
    else s
  end_page_writeback s pg

/-- Read completion `end_swap_bio_read`.  The closing `bio_put` releases the
descriptor, which the state does not track. -/
def end_swap_bio_read (env : Env) (s : State) (b : bio) : State :=
  let uptodate := test_bit env.BIO_UPTODATE b.bi_flags
  let pg := b.bv_page
  let s :=
    if !uptodate then
      let s := SetPageError s pg
      let s := ClearPageUptodate s pg
      emit s (Event.printk_read_error b.bi_bdev b.bi_sector)
    else
      SetPageUptodate s pg
  unlock_page s pg

/-! ## Slot aging heap -/

/-- Modelled from the spec: the exchange step of the Slot Aging Heap (part of
`min_heapify`, whose body is not in `page_io.c`).  Exchange the entries at heap
positions `i` and `j` and record the new positions of the two moved slots in
`index`. -/
def heap_swap (heap index : Nat → Nat) (i j : Nat) : (Nat → Nat) × (Nat → Nat) :=
  let heap2 := Function.update (Function.update heap i (heap j)) j (heap i)
  let index2 := Function.update (Function.update index (heap2 i) i) (heap2 j) j
  (heap2, index2)

/-- Modelled from the spec: the downward sift of the Slot Aging Heap (part of
`min_heapify`).  Sift the entry at position `i` towards the bottom: exchange it with its
smaller child while a child in range has a smaller age.  `fuel` bounds the
number of levels descended. -/
def sift_down (age : Nat → Nat) (n : Nat) :
    Nat → (Nat → Nat) → (Nat → Nat) → Nat → (Nat → Nat) × (Nat → Nat)
  | 0, heap, index, _ => (heap, index)
  | fuel + 1, heap, index, i =>
    let l := 2 * i + 1
    let r := 2 * i + 2
    let smallest := if l < n ∧ age (heap l) < age (heap i) then l else i
    let smallest := if r < n ∧ age (heap r) < age (heap smallest) then r else smallest
    if smallest = i then (heap, index)
    else
      let hi := heap_swap heap index i smallest
      sift_down age n fuel hi.1 hi.2 smallest

/-- Modelled from the spec: the upward sift of the Slot Aging Heap (part of
`min_heapify`).  Sift the entry at position `i` towards the root: exchange it with its
parent while the parent has a larger age. -/
def sift_up (age : Nat → Nat) :
    Nat → (Nat → Nat) → (Nat → Nat) → Nat → (Nat → Nat) × (Nat → Nat)
  | 0, heap, index, _ => (heap, index)
  | fuel + 1, heap, index, i =>
    if 0 < i ∧ age (heap i) < age (heap ((i - 1) / 2)) then
      let hi := heap_swap heap index i ((i - 1) / 2)
      sift_up age fuel hi.1 hi.2 ((i - 1) / 2)
    else (heap, index)

/-- Modelled from the spec: `min_heapify(heap, index, max, pos)`, whose body is
not in `page_io.c`.  It is the Slot Aging Heap operation `update`: restore heap
order by sifting the entry at position `pos` upward when its age is below its
parent's and downward otherwise.  The last four arguments are those of the C
call, in its order.  The heap is ordered by the ages of the slots it holds, which
the C function reaches through memory; with explicit state passing that memory,
the device's `slot_age` array, is handed over as the leading argument.  The
function returns the new `heap` and `index` arrays and writes nothing else. -/
def min_heapify (age : Nat → Nat) (heap index : Nat → Nat) (n : Nat) (pos : Nat) :
    (Nat → Nat) × (Nat → Nat) :=
  if 0 < pos ∧ age (heap pos) < age (heap ((pos - 1) / 2)) then
    sift_up age pos heap index pos
  else
    sift_down age n n heap index pos

/-! ## Byte-addressable backend -/

/-- Modelled from the spec: `mem_swap_page2info`, the device resolution of the
page's swap entry (its body is not in `page_io.c`): the device is the one named
by the type part of the entry stored in `page->private`. -/
def mem_swap_page2info (env : Env) (s : State) (pg : Nat) : Nat :=
  env.swp_type (page_private s pg)

/-- Address of the slot `offset` of device `si`: `__va(pfn << PAGE_SHIFT)` with
`pfn = offset + si->start_pfn`, in `unsigned long` arithmetic.  Slot memory is
keyed by the physical address, of which `__va` is a fixed translation. -/
def slot_addr (env : Env) (si : swap_info_struct) (offset : Nat) : Nat :=
  let pfn := (offset + si.start_pfn) % 2 ^ env.BITS_PER_LONG
  (pfn <<< env.PAGE_SHIFT) % 2 ^ env.BITS_PER_LONG

/-- Byte-addressable write `mem_swap_writepage(page, si)`; `si` is the index of
the device in `State.swap_info`. -/
def mem_swap_writepage (env : Env) (s : State) (pg : Nat) (si : Nat) : State :=
  let dev := s.swap_info si
  let entry := page_private s pg
  let old := env.swp_offset entry
  let offset := dev.slot_map old
  let swp_addr := slot_addr env dev offset
  let pg_addr := (s.pages pg).data
  -- memcpy(swp_addr, pg_addr, PAGE_SIZE)
  let s := emit { s with mem := Function.update s.mem swp_addr pg_addr }
    (Event.copy_to_slot pg swp_addr)
  -- si->slot_age[offset]++, in the width of the counter
  let age := Function.update dev.slot_age offset
    ((dev.slot_age offset + 1) % 2 ^ env.SLOT_AGE_BITS)
  let hi := min_heapify age dev.heap dev.index dev.max (dev.index offset)
  let dev2 : swap_info_struct := { dev with slot_age := age, heap := hi.1, index := hi.2 }
  { s with swap_info := Function.update s.swap_info si dev2 }

/-- Byte-addressable read `mem_swap_readpage(page, si)`. -/
def mem_swap_readpage (env : Env) (s : State) (pg : Nat) (si : Nat) : State :=
  let dev := s.swap_info si
  let entry := page_private s pg
  let offset := env.swp_offset entry
  let offset := dev.slot_map offset
  let swp_addr := slot_addr env dev offset
  -- memcpy(pg_addr, swp_addr, PAGE_SIZE)
  emit (update_page s pg (fun p => { p with data := s.mem swp_addr }))
    (Event.copy_from_slot pg swp_addr)

/-! ## Swap coordinator -/

/-- The test `si->flags & SWP_MEM` of the `CONFIG_MEMSWAP` blocks. -/
def is_mem_swap (env : Env) (s : State) (pg : Nat) : Bool :=
  env.CONFIG_MEMSWAP &&
    ((s.swap_info (mem_swap_page2info env s pg)).flags &&& env.SWP_MEM != 0)

/-- Swap-out entry point `swap_writepage`; the second component is the
returned `int`. -/
def swap_writepage (env : Env) (s : State) (pg : Nat) (wbc : writeback_control) :
    State × Int :=
  if env.try_to_free_swap s pg then
    (unlock_page s pg, 0)
  else if is_mem_swap env s pg then
    let si := mem_swap_page2info env s pg
    let s := count_vm_event s vm_event_item.PSWPOUT
    let s := set_page_writeback s pg
    let s := unlock_page s pg
    let s := mem_swap_writepage env s pg si
    let s := end_page_writeback s pg
    (s, 0)
  else
    match get_swap_bio env s gfp_t.GFP_NOIO_flags pg bio_end_io_t.end_swap_bio_write with
    | none =>
      let s := set_page_dirty s pg
      let s := unlock_page s pg
      (s, -ENOMEM)
    | some b =>
      let rw :=
        if wbc.sync_mode = writeback_sync_modes.WB_SYNC_ALL then WRITE ||| env.REQ_SYNC
        else WRITE
      let s := count_vm_event s vm_event_item.PSWPOUT
      let s := { s with swap_outs := wrap_int (s.swap_outs + 1) }
      let s := set_page_writeback s pg
      let s := unlock_page s pg
      let s := submit_bio s rw b
      (s, 0)

/-- Swap-in entry point `swap_readpage`; `none` is a failed `VM_BUG_ON`. -/
def swap_readpage (env : Env) (s : State) (pg : Nat) : Option (State × Int) :=
  if !PageLocked s pg then none
  else if PageUptodate s pg then none
  else if is_mem_swap env s pg then
    let si := mem_swap_page2info env s pg
    let s := count_vm_event s vm_event_item.PSWPIN
    let s := mem_swap_readpage env s pg si
    let s := unlock_page s pg
    let s := SetPageUptodate s pg
    some (s, 0)
  else
    match get_swap_bio env s gfp_t.GFP_KERNEL_flags pg bio_end_io_t.end_swap_bio_read with
    | none =>
      let s := unlock_page s pg
      some (s, -ENOMEM)
    | some b =>
      let s := count_vm_event s vm_event_item.PSWPIN
      let s := { s with swap_ins := wrap_int (s.swap_ins + 1) }
      let s := submit_bio s READ b
      some (s, 0)

/-! ## A concrete configuration -/

/-- Example swap device 1: byte-addressable, 4 slots, all ages 0, identity slot
map, heap and index. -/
def demo_mem_dev : swap_info_struct :=
  { flags := 1024, max := 4, start_pfn := 256,
    slot_map := fun i => i, slot_age := fun _ => 0,
    heap := fun i => i, index := fun i => i }

/-- Example swap device 0: a block device (no `SWP_MEM` flag). -/
def demo_blk_dev : swap_info_struct :=
  { flags := 3, max := 0, start_pfn := 0,
    slot_map := fun i => i, slot_age := fun _ => 0,
    heap := fun i => i, index := fun i => i }

/-- Example page: locked, dirty, not up to date, with the given swap entry
value and contents. -/
def demo_page (entry : Nat) (data : List Nat) : page :=
  { locked := true, dirty := true, writeback := false, uptodate := false,
    error := false, reclaim := true, private_val := entry, data := data }

/-- Example state: page 0 lives on block device 0 (offset 5); pages 1 and 2
live on byte-addressable device 1 at logical offset 2, page 1 holding the
bytes `[7, 8, 9]` and page 2 being empty; page 3 lives on device 1 at logical
offset 0. -/
def demo_state : State :=
  { pages := fun a =>
      if a = 0 then demo_page 5 [4, 4]
      else if a = 1 then demo_page (65536 + 2) [7, 8, 9]
      else if a = 3 then demo_page 65536 [1]
      else demo_page (65536 + 2) []
    swap_info := fun t => if t = 1 then demo_mem_dev else demo_blk_dev
    mem := fun _ => []
    swap_outs := 0
    swap_ins := 0
    pswpout := 0
    pswpin := 0
    trace := [] }

/-- Example swap device 1 late in its life: slot 2 has reached the largest
32-bit age, the other slots have age 5. -/
def demo_mem_dev_aged : swap_info_struct :=
  { demo_mem_dev with slot_age := fun i => if i = 2 then 4294967295 else 5 }

/-- The example state with device 1 replaced by its aged version. -/
def demo_state_aged : State :=
  { demo_state with swap_info := fun t => if t = 1 then demo_mem_dev_aged else demo_blk_dev }

/-- The example state with every slot of every device at the largest age of the
configured counter width. -/
def demo_state_full (env : Env) : State :=
  { demo_state with
    swap_info := fun _ =>
      { demo_mem_dev with slot_age := fun _ => 2 ^ env.SLOT_AGE_BITS - 1 } }

/-- A descriptor as handed out by the allocator in the example. -/
def demo_bio : bio :=
  { bi_sector := 0, bi_bdev := 0, bi_flags := 1, bv_page := 0, bv_len := 0,
    bv_offset := 0, bi_vcnt := 0, bi_idx := 0, bi_size := 0,
    bi_end_io := bio_end_io_t.end_swap_bio_read }

/-- Example environment: 4 KiB pages, 64-bit longs, 32-bit slot ages, swap entry value
`type * 65536 + offset`, nothing stale, allocation succeeds. -/
def demo_env : Env :=
  { CONFIG_MEMSWAP := true, PAGE_SHIFT := 12, BITS_PER_LONG := 64, SECTOR_BITS := 64,
    SLOT_AGE_BITS := 32,
    SWP_MEM := 1024, REQ_SYNC := 16, BIO_UPTODATE := 0,
    swp_type := fun v => v / 65536, swp_offset := fun v => v % 65536,
    try_to_free_swap := fun _ _ => false,
    map_swap_page := fun s a => ((s.pages a).private_val % 65536, 8),
    bio_alloc := fun _ _ _ => some demo_bio }

/-- The example environment with descriptor allocation failing. -/
def demo_env_nomem : Env :=
  { demo_env with bio_alloc := fun _ _ _ => none }

/-- The example environment with every page reported as stale swap cache. -/
def demo_env_stale : Env :=
  { demo_env with try_to_free_swap := fun _ _ => true }

/-- The descriptor `swap_writepage` builds for page 0 in the example. -/
def demo_write_bio : bio :=
  { bi_sector := 40, bi_bdev := 8, bi_flags := 1, bv_page := 0, bv_len := 4096,
    bv_offset := 0, bi_vcnt := 1, bi_idx := 0, bi_size := 4096,
    bi_end_io := bio_end_io_t.end_swap_bio_write }

/-- Example writeback control: asynchronous write-back. -/
def demo_wbc : writeback_control :=
  { sync_mode := writeback_sync_modes.WB_SYNC_NONE }

/-! ## Sequences of byte-addressable transfers and trace predicates -/

/-- One transfer on a byte-addressable device: a write or a read of a page. -/
inductive mem_op where
  | write (pg : Nat)
  | read (pg : Nat)
deriving DecidableEq, Repr

/-- Run one transfer on device `si`. -/
def run_mem_op (env : Env) (si : Nat) (s : State) (op : mem_op) : State :=
  match op with
  | mem_op.write pg => mem_swap_writepage env s pg si
  | mem_op.read pg => mem_swap_readpage env s pg si

/-- Run a sequence of transfers on device `si`, first element first. -/
def run_mem_ops (env : Env) (si : Nat) (s : State) (ops : List mem_op) : State :=
  ops.foldl (run_mem_op env si) s

/-- The physical slot that page `pg` is mapped to on device `si`:
`si->slot_map[swp_offset(page_private(page))]`. -/
def slot_of (env : Env) (s : State) (si : Nat) (pg : Nat) : Nat :=
  (s.swap_info si).slot_map (env.swp_offset (page_private s pg))

/-- Whether a transfer is a write that lands in slot `j` of device `si`. -/
def writes_slot (env : Env) (s : State) (si : Nat) (j : Nat) (op : mem_op) : Bool :=
  match op with
  | mem_op.write pg => decide (slot_of env s si pg = j)
  | mem_op.read _ => false

/-- Number of writes of a sequence that land in slot `j` of device `si`. -/
def writes_to (env : Env) (s : State) (si : Nat) (j : Nat) (ops : List mem_op) : Nat :=
  (ops.filter (writes_slot env s si j)).length

/-- Replay a trace for page `pg`, starting from lock state `locked`: true when
every copy of the page into a slot happens while the page is locked. -/
def copies_under_lock (pg : Nat) : Bool → List Event → Bool
  | _, [] => true
  | locked, Event.unlock p :: rest =>
    copies_under_lock pg (if p = pg then false else locked) rest
  | locked, Event.copy_to_slot p _ :: rest =>
    (p != pg || locked) && copies_under_lock pg locked rest
  | locked, _ :: rest => copies_under_lock pg locked rest

/-! ## Heap invariant -/

/-- Min-heap order of `heap` over the ages among the first `n` positions: every
position is no older than each of its children that exists. -/
def heap_ordered (age heap : Nat → Nat) (n : Nat) : Prop :=
  ∀ i, i < n →
    (2 * i + 1 < n → age (heap i) ≤ age (heap (2 * i + 1))) ∧
    (2 * i + 2 < n → age (heap i) ≤ age (heap (2 * i + 2)))

/-- Position lookup `index` inverts `heap` on the slots below `n`: the recorded
position of a slot is in range and holds that slot. -/
def index_inverse (heap index : Nat → Nat) (n : Nat) : Prop :=
  ∀ s, s < n → index s < n ∧ heap (index s) = s

/-- The invariant of a byte-addressable device: `heap` is a min-heap over
`slot_age` and `index` is the inverse of `heap`, over the `max` slots. -/
def heap_inv (si : swap_info_struct) : Prop :=
  heap_ordered si.slot_age si.heap si.max ∧ index_inverse si.heap si.index si.max

instance (age heap : Nat → Nat) (n : Nat) : Decidable (heap_ordered age heap n) := by
  unfold heap_ordered
  infer_instance

instance (heap index : Nat → Nat) (n : Nat) : Decidable (index_inverse heap index n) := by
  unfold index_inverse
  infer_instance

instance (si : swap_info_struct) : Decidable (heap_inv si) := by
  unfold heap_inv
  infer_instance

/-- Heap order with position `i` exempted: every position other than `i` is no
older than its children, and the parent of `i` is no older than the children
of `i`. -/
def heap_ordered_except (age heap : Nat → Nat) (n i : Nat) : Prop :=
  (∀ j, j ≠ i →
    (2 * j + 1 < n → age (heap j) ≤ age (heap (2 * j + 1))) ∧
    (2 * j + 2 < n → age (heap j) ≤ age (heap (2 * j + 2)))) ∧
  (∀ p c, (i = 2 * p + 1 ∨ i = 2 * p + 2) → (c = 2 * i + 1 ∨ c = 2 * i + 2) → c < n →
    age (heap p) ≤ age (heap c))

/-- Heap order with the link into position `i` exempted: every child other than
`i` is no younger than its parent, and the parent of `i` is no older than the
children of `i`. -/
def heap_ordered_except_up (age heap : Nat → Nat) (n i : Nat) : Prop :=
  (∀ j d, (d = 2 * j + 1 ∨ d = 2 * j + 2) → d < n → d ≠ i →
    age (heap j) ≤ age (heap d)) ∧
  (∀ p c, (i = 2 * p + 1 ∨ i = 2 * p + 2) → (c = 2 * i + 1 ∨ c = 2 * i + 2) → c < n →
    age (heap p) ≤ age (heap c))

/-! ## Block path: completions and resource exhaustion -/

/-- Claim C1: a page dispatched by `swap_writepage` on the block path (page
locked on entry, not stale, descriptor `b` allocated) is unlocked with
`writeback` set and `b` submitted; when `end_swap_bio_write` then runs with that
descriptor carrying flags whose `BIO_UPTODATE` bit is clear, the page ends up
dirty, in error, not under writeback, with the reclaim hint cleared, and
unlocked; the completion never changes the lock bit of its page. -/
theorem write_failure_preserves_data (env : Env) (s : State) (pg : Nat)
    (wbc : writeback_control) (b : bio) (fl : Nat)
    (_hlock : PageLocked s pg = true)
    (hfree : env.try_to_free_swap s pg = false)
    (hblk : is_mem_swap env s pg = false)
    (hbio : get_swap_bio env s gfp_t.GFP_NOIO_flags pg
      bio_end_io_t.end_swap_bio_write = some b)
    (hfl : test_bit env.BIO_UPTODATE fl = false) :
    (∃ rw, (swap_writepage env s pg wbc).1.trace
        = s.trace ++ [Event.writeback_set pg, Event.unlock pg, Event.submit rw b]) ∧
    b.bv_page = pg ∧
    ((swap_writepage env s pg wbc).1.pages pg).locked = false ∧
    ((swap_writepage env s pg wbc).1.pages pg).writeback = true ∧
    ((end_swap_bio_write env (swap_writepage env s pg wbc).1
        { b with bi_flags := fl }).pages pg).dirty = true ∧
    ((end_swap_bio_write env (swap_writepage env s pg wbc).1
        { b with bi_flags := fl }).pages pg).error = true ∧
    ((end_swap_bio_write env (swap_writepage env s pg wbc).1
        { b with bi_flags := fl }).pages pg).writeback = false ∧
    ((end_swap_bio_write env (swap_writepage env s pg wbc).1
        { b with bi_flags := fl }).pages pg).reclaim = false ∧
    ((end_swap_bio_write env (swap_writepage env s pg wbc).1
        { b with bi_flags := fl }).pages pg).locked = false ∧
    (∀ (t : State) (c : bio),
      ((end_swap_bio_write env t c).pages c.bv_page).locked = (t.pages c.bv_page).locked) := by
  have hpg : b.bv_page = pg := by
    unfold get_swap_bio at hbio
    cases halloc : env.bio_alloc s gfp_t.GFP_NOIO_flags 1 with
    | none => simp [halloc] at hbio
    | some b0 =>
      simp only [halloc, Option.some.injEq] at hbio
      rw [← hbio]
  refine ⟨?_, hpg, ?_, ?_, ?_, ?_, ?_, ?_, ?_, ?_⟩
  · by_cases hs : wbc.sync_mode = writeback_sync_modes.WB_SYNC_ALL <;>
      simp [swap_writepage, hfree, hblk, hbio, hs, submit_bio, unlock_page,
        set_page_writeback, count_vm_event, emit, update_page]
  all_goals
    simp [swap_writepage, hfree, hblk, hbio, hfl, hpg, end_swap_bio_write, submit_bio,
      unlock_page, set_page_writeback, end_page_writeback, SetPageError, set_page_dirty,
      ClearPageReclaim, count_vm_event, emit, update_page]
  intro t c
  by_cases hc : test_bit env.BIO_UPTODATE c.bi_flags = true <;> simp [hc]

/-- Witness for C1: page 0 of the example, written to the block device with
the completion reporting failure (flags 0). -/
theorem write_failure_preserves_data_witness :
    ((end_swap_bio_write demo_env (swap_writepage demo_env demo_state 0 demo_wbc).1
        { demo_write_bio with bi_flags := 0 }).pages 0).dirty = true ∧
    ((end_swap_bio_write demo_env (swap_writepage demo_env demo_state 0 demo_wbc).1
        { demo_write_bio with bi_flags := 0 }).pages 0).error = true ∧
    ((end_swap_bio_write demo_env (swap_writepage demo_env demo_state 0 demo_wbc).1
        { demo_write_bio with bi_flags := 0 }).pages 0).writeback = false ∧
    ((end_swap_bio_write demo_env (swap_writepage demo_env demo_state 0 demo_wbc).1
        { demo_write_bio with bi_flags := 0 }).pages 0).locked = false :=
  have h := write_failure_preserves_data demo_env demo_state 0 demo_wbc demo_write_bio 0
    (by decide) (by decide) (by decide) (by decide) (by decide)
  ⟨h.2.2.2.2.1, h.2.2.2.2.2.1, h.2.2.2.2.2.2.1, h.2.2.2.2.2.2.2.2.1⟩

/-- Claim C2: after `end_swap_bio_read`, for any state and descriptor, the
descriptor's page is unlocked and is up to date exactly when the descriptor's
`BIO_UPTODATE` bit was set; when the bit was clear the page is in error and
not up to date, whatever it was before. -/
theorem read_completion_flags (env : Env) (s : State) (b : bio) :
    ((end_swap_bio_read env s b).pages b.bv_page).locked = false ∧
    (((end_swap_bio_read env s b).pages b.bv_page).uptodate = true ↔
      test_bit env.BIO_UPTODATE b.bi_flags = true) ∧
    (test_bit env.BIO_UPTODATE b.bi_flags = false →
      ((end_swap_bio_read env s b).pages b.bv_page).error = true ∧
      ((end_swap_bio_read env s b).pages b.bv_page).uptodate = false) := by
  by_cases hc : test_bit env.BIO_UPTODATE b.bi_flags = true <;>
    simp [end_swap_bio_read, hc, unlock_page, SetPageError, ClearPageUptodate,
      SetPageUptodate, emit, update_page]

/-- Claim C3: when `try_to_free_swap` reports the locked page as stale swap
cache, `swap_writepage` returns 0 and its only effect is to unlock the page:
the trace gains the unlock event alone (no descriptor submitted, no slot copy,
no writeback), `writeback` and `dirty` keep their values, and slot memory, the
swap devices (hence every slot age) and the counters are unchanged. -/
theorem stale_cache_short_circuit (env : Env) (s : State) (pg : Nat)
    (wbc : writeback_control)
    (_hlock : PageLocked s pg = true)
    (hfree : env.try_to_free_swap s pg = true) :
    (swap_writepage env s pg wbc).2 = 0 ∧
    ((swap_writepage env s pg wbc).1.pages pg).locked = false ∧
    (swap_writepage env s pg wbc).1.trace = s.trace ++ [Event.unlock pg] ∧
    (swap_writepage env s pg wbc).1.mem = s.mem ∧
    ((swap_writepage env s pg wbc).1.pages pg).writeback = (s.pages pg).writeback ∧
    ((swap_writepage env s pg wbc).1.pages pg).dirty = (s.pages pg).dirty ∧
    (swap_writepage env s pg wbc).1.swap_outs = s.swap_outs ∧
    (swap_writepage env s pg wbc).1.swap_info = s.swap_info ∧
    (∀ t j, ((swap_writepage env s pg wbc).1.swap_info t).slot_age j
      = (s.swap_info t).slot_age j) := by
  simp [swap_writepage, hfree, unlock_page, emit, update_page]

/-- Witness for C3: page 1 of the example reported stale. -/
theorem stale_cache_short_circuit_witness :
    (swap_writepage demo_env_stale demo_state 1 demo_wbc).2 = 0 ∧
    ((swap_writepage demo_env_stale demo_state 1 demo_wbc).1.pages 1).locked = false ∧
    (swap_writepage demo_env_stale demo_state 1 demo_wbc).1.trace = [Event.unlock 1] :=
  have h := stale_cache_short_circuit demo_env_stale demo_state 1 demo_wbc
    (by decide) (by decide)
  ⟨h.1, h.2.1, h.2.2.1⟩

/-- Claim C4: on the block path, for a locked page that is not stale, when
descriptor allocation fails `swap_writepage` returns `-ENOMEM`, the page is
dirty and unlocked, `writeback` is not set by the call, the only event is the
unlock (no descriptor submitted) and `swap_outs` is unchanged. -/
theorem write_out_resource_exhaustion (env : Env) (s : State) (pg : Nat)
    (wbc : writeback_control)
    (_hlock : PageLocked s pg = true)
    (hfree : env.try_to_free_swap s pg = false)
    (hblk : is_mem_swap env s pg = false)
    (halloc : env.bio_alloc s gfp_t.GFP_NOIO_flags 1 = none) :
    get_swap_bio env s gfp_t.GFP_NOIO_flags pg bio_end_io_t.end_swap_bio_write = none ∧
    (swap_writepage env s pg wbc).2 = -ENOMEM ∧
    ((swap_writepage env s pg wbc).1.pages pg).dirty = true ∧
    ((swap_writepage env s pg wbc).1.pages pg).locked = false ∧
    ((swap_writepage env s pg wbc).1.pages pg).writeback = (s.pages pg).writeback ∧
    (swap_writepage env s pg wbc).1.trace = s.trace ++ [Event.unlock pg] ∧
    (swap_writepage env s pg wbc).1.swap_outs = s.swap_outs := by
  have hbio : get_swap_bio env s gfp_t.GFP_NOIO_flags pg
      bio_end_io_t.end_swap_bio_write = none := by
    simp [get_swap_bio, halloc]
  simp [swap_writepage, hfree, hblk, hbio, unlock_page, set_page_dirty, emit, update_page]

/-- Witness for C4: page 0 of the example with allocation failing. -/
theorem write_out_resource_exhaustion_witness :
    (swap_writepage demo_env_nomem demo_state 0 demo_wbc).2 = -12 ∧
    ((swap_writepage demo_env_nomem demo_state 0 demo_wbc).1.pages 0).dirty = true ∧
    ((swap_writepage demo_env_nomem demo_state 0 demo_wbc).1.pages 0).locked = false :=
  have h := write_out_resource_exhaustion demo_env_nomem demo_state 0 demo_wbc
    (by decide) (by decide) (by decide) (by decide)
  ⟨h.2.1, h.2.2.1, h.2.2.2.1⟩

/-- Claim C5: on the block path, for a page that is locked and not up to date,
when descriptor allocation fails `swap_readpage` returns `-ENOMEM` with the
page unlocked and still not up to date; the only event is the unlock (no
descriptor submitted) and `swap_ins` is unchanged. -/
theorem read_in_resource_exhaustion (env : Env) (s : State) (pg : Nat)
    (hlock : PageLocked s pg = true)
    (hupt : PageUptodate s pg = false)
    (hblk : is_mem_swap env s pg = false)
    (halloc : env.bio_alloc s gfp_t.GFP_KERNEL_flags 1 = none) :
    ∃ s2, swap_readpage env s pg = some (s2, -ENOMEM) ∧
      (s2.pages pg).locked = false ∧
      (s2.pages pg).uptodate = false ∧
      s2.trace = s.trace ++ [Event.unlock pg] ∧
      s2.swap_ins = s.swap_ins := by
  have hbio : get_swap_bio env s gfp_t.GFP_KERNEL_flags pg
      bio_end_io_t.end_swap_bio_read = none := by
    simp [get_swap_bio, halloc]
  refine ⟨unlock_page s pg, ?_, ?_, ?_, ?_, ?_⟩
  · simp [swap_readpage, hlock, hupt, hblk, hbio]
  · simp [unlock_page, emit, update_page]
  · have h := hupt
    simp only [PageUptodate] at h
    simp [unlock_page, emit, update_page, h]
  · simp [unlock_page, emit, update_page]
  · simp [unlock_page, emit, update_page]

/-- Witness for C5: page 0 of the example read in with allocation failing. -/
theorem read_in_resource_exhaustion_witness :
    ∃ s2, swap_readpage demo_env_nomem demo_state 0 = some (s2, -ENOMEM) ∧
      (s2.pages 0).locked = false ∧
      (s2.pages 0).uptodate = false ∧
      s2.trace = demo_state.trace ++ [Event.unlock 0] ∧
      s2.swap_ins = demo_state.swap_ins :=
  read_in_resource_exhaustion demo_env_nomem demo_state 0
    (by decide) (by decide) (by decide) (by decide)

/-- Witness for C2: the example descriptor with flags 0 (read failure) on
page 0. -/
theorem read_completion_flags_witness :
    ((end_swap_bio_read demo_env demo_state { demo_bio with bi_flags := 0 }).pages 0).error
      = true ∧
    ((end_swap_bio_read demo_env demo_state { demo_bio with bi_flags := 0 }).pages 0).uptodate
      = false :=
  (read_completion_flags demo_env demo_state { demo_bio with bi_flags := 0 }).2.2 (by decide)

/-! ## Byte-addressable path -/

/-- Effect of the byte-addressable branch of `swap_writepage` on slot memory
and on the device of the page. -/
theorem swap_writepage_mem_effect (env : Env) (s : State) (pg : Nat)
    (wbc : writeback_control)
    (hfree : env.try_to_free_swap s pg = false)
    (hmem : is_mem_swap env s pg = true) :
    (swap_writepage env s pg wbc).1.mem
        (slot_addr env (s.swap_info (mem_swap_page2info env s pg))
          ((s.swap_info (mem_swap_page2info env s pg)).slot_map
            (env.swp_offset (page_private s pg))))
      = (s.pages pg).data ∧
    ((swap_writepage env s pg wbc).1.swap_info (mem_swap_page2info env s pg)).slot_map
      = (s.swap_info (mem_swap_page2info env s pg)).slot_map ∧
    ((swap_writepage env s pg wbc).1.swap_info (mem_swap_page2info env s pg)).start_pfn
      = (s.swap_info (mem_swap_page2info env s pg)).start_pfn := by
  simp [swap_writepage, hfree, hmem, mem_swap_writepage, mem_swap_page2info, page_private,
    end_page_writeback, unlock_page, set_page_writeback, count_vm_event, emit, update_page]

/-- Claim C6: round trip on the byte-addressable backend.  A page `pg` with
entry `E` is written by `swap_writepage` (not stale, `SWP_MEM` device).  In any
later state `s2` in which the device of `E` is still byte-addressable with the
same base, the slot map entry of `E`'s offset is unchanged and the slot still
holds what the write stored, `swap_readpage` of a locked, not up to date page
`pg2` carrying the same entry returns 0 with `pg2` holding the written
contents, up to date and unlocked. -/
theorem mem_round_trip (env : Env) (s s2 : State) (pg pg2 : Nat)
    (wbc : writeback_control)
    (hfree : env.try_to_free_swap s pg = false)
    (hmem : is_mem_swap env s pg = true)
    (hentry : page_private s2 pg2 = page_private s pg)
    (hlock : PageLocked s2 pg2 = true)
    (hupt : PageUptodate s2 pg2 = false)
    (hmem2 : is_mem_swap env s2 pg2 = true)
    (hmap : (s2.swap_info (mem_swap_page2info env s pg)).slot_map
          (env.swp_offset (page_private s pg))
        = ((swap_writepage env s pg wbc).1.swap_info (mem_swap_page2info env s pg)).slot_map
          (env.swp_offset (page_private s pg)))
    (hpfn : (s2.swap_info (mem_swap_page2info env s pg)).start_pfn
        = ((swap_writepage env s pg wbc).1.swap_info
            (mem_swap_page2info env s pg)).start_pfn)
    (hslot : s2.mem (slot_addr env (s2.swap_info (mem_swap_page2info env s pg))
          ((s2.swap_info (mem_swap_page2info env s pg)).slot_map
            (env.swp_offset (page_private s pg))))
        = (swap_writepage env s pg wbc).1.mem
          (slot_addr env (s2.swap_info (mem_swap_page2info env s pg))
            ((s2.swap_info (mem_swap_page2info env s pg)).slot_map
              (env.swp_offset (page_private s pg))))) :
    ∃ s3, swap_readpage env s2 pg2 = some (s3, 0) ∧
      (s3.pages pg2).data = (s.pages pg).data ∧
      (s3.pages pg2).uptodate = true ∧
      (s3.pages pg2).locked = false := by
  obtain ⟨hw, hwmap, hwpfn⟩ := swap_writepage_mem_effect env s pg wbc hfree hmem
  rw [hwmap] at hmap
  rw [hwpfn] at hpfn
  have haddr : slot_addr env (s2.swap_info (mem_swap_page2info env s pg))
        ((s2.swap_info (mem_swap_page2info env s pg)).slot_map
          (env.swp_offset (page_private s pg)))
      = slot_addr env (s.swap_info (mem_swap_page2info env s pg))
        ((s.swap_info (mem_swap_page2info env s pg)).slot_map
          (env.swp_offset (page_private s pg))) := by
    simp only [slot_addr, hmap, hpfn]
  rw [haddr, hw] at hslot
  have hsi : mem_swap_page2info env s2 pg2 = mem_swap_page2info env s pg := by
    simp only [mem_swap_page2info, hentry]
  refine ⟨SetPageUptodate (unlock_page (mem_swap_readpage env
    (count_vm_event s2 vm_event_item.PSWPIN) pg2 (mem_swap_page2info env s2 pg2)) pg2) pg2,
    ?_, ?_, ?_, ?_⟩
  · simp [swap_readpage, hlock, hupt, hmem2]
  · simp [mem_swap_readpage, hsi, hentry, haddr, hslot, SetPageUptodate, unlock_page,
      count_vm_event, emit, update_page, page_private]
    simp only [page_private] at haddr hslot hentry
    rw [hentry, haddr, hslot]
  · simp [mem_swap_readpage, SetPageUptodate, unlock_page,
      count_vm_event, emit, update_page]
  · simp [mem_swap_readpage, SetPageUptodate, unlock_page,
      count_vm_event, emit, update_page]

/-- Witness for C6: page 1 of the example (contents `[7, 8, 9]`) is written,
then page 2, carrying the same entry, is read in the resulting state. -/
theorem mem_round_trip_witness :
    ∃ s3, swap_readpage demo_env (swap_writepage demo_env demo_state 1 demo_wbc).1 2
        = some (s3, 0) ∧
      (s3.pages 2).data = [7, 8, 9] ∧
      (s3.pages 2).uptodate = true ∧
      (s3.pages 2).locked = false :=
  mem_round_trip demo_env demo_state (swap_writepage demo_env demo_state 1 demo_wbc).1 1 2
    demo_wbc (by decide) (by decide) (by decide) (by decide) (by decide) (by decide)
    (by decide) (by decide) (by decide)

/-- One byte-addressable write: the age of the target slot becomes its
successor in the width of the counter, the other ages, the slot map, the other
fields of the device and the page structures stay. -/
theorem mem_swap_writepage_age (env : Env) (s : State) (pg si : Nat) :
    ((mem_swap_writepage env s pg si).swap_info si).slot_age (slot_of env s si pg)
      = ((s.swap_info si).slot_age (slot_of env s si pg) + 1) % 2 ^ env.SLOT_AGE_BITS ∧
    (∀ j, j ≠ slot_of env s si pg →
      ((mem_swap_writepage env s pg si).swap_info si).slot_age j
        = (s.swap_info si).slot_age j) ∧
    ((mem_swap_writepage env s pg si).swap_info si).slot_map = (s.swap_info si).slot_map ∧
    (mem_swap_writepage env s pg si).pages = s.pages := by
  refine ⟨?_, ?_, ?_, ?_⟩
  · simp [mem_swap_writepage, slot_of, emit]
  · intro j hj
    simp only [slot_of] at hj
    simp [mem_swap_writepage, emit, Function.update_noteq hj]
  · simp [mem_swap_writepage, emit]
  · simp [mem_swap_writepage, emit]

/-- A transfer does not change which slot a page is mapped to. -/
theorem slot_of_run_mem_op (env : Env) (s : State) (si : Nat) (op : mem_op) (pg : Nat) :
    slot_of env (run_mem_op env si s op) si pg = slot_of env s si pg := by
  cases op with
  | write q =>
    obtain ⟨_, _, hmap, hpages⟩ := mem_swap_writepage_age env s q si
    simp only [slot_of, run_mem_op, page_private, hmap, hpages]
  | read q =>
    simp only [slot_of, run_mem_op, page_private, mem_swap_readpage, emit, update_page]
    by_cases h : pg = q
    · subst h
      simp
    · simp [Function.update_noteq h]

/-- Counting the writes to slot `j` is the same before and after a transfer. -/
theorem writes_to_run_mem_op (env : Env) (s : State) (si : Nat) (op : mem_op) (j : Nat)
    (ops : List mem_op) :
    writes_to env (run_mem_op env si s op) si j ops = writes_to env s si j ops := by
  have h : writes_slot env (run_mem_op env si s op) si j = writes_slot env s si j := by
    funext o
    cases o with
    | write q => simp only [writes_slot, slot_of_run_mem_op]
    | read q => rfl
  simp only [writes_to, h]

/-- After a sequence of transfers that leaves room in the counter, the age of
slot `j` is its initial age plus the number of writes of the sequence that
landed in `j`. -/
theorem run_mem_ops_age (env : Env) (si : Nat) (j : Nat) (ops : List mem_op) :
    ∀ s : State,
      (s.swap_info si).slot_age j + writes_to env s si j ops < 2 ^ env.SLOT_AGE_BITS →
      ((run_mem_ops env si s ops).swap_info si).slot_age j
        = (s.swap_info si).slot_age j + writes_to env s si j ops := by
  induction ops with
  | nil => intro s _; simp [run_mem_ops, writes_to]
  | cons op rest ih =>
    intro s hroom
    have hstep : run_mem_ops env si s (op :: rest)
        = run_mem_ops env si (run_mem_op env si s op) rest := rfl
    cases op with
    | read q =>
      have hsame : (run_mem_op env si s (mem_op.read q)).swap_info = s.swap_info := by
        simp [run_mem_op, mem_swap_readpage, emit, update_page]
      have hcount : writes_to env s si j (mem_op.read q :: rest)
          = writes_to env s si j rest := by
        simp [writes_to, writes_slot]
      rw [hcount] at hroom
      have h1 := ih (run_mem_op env si s (mem_op.read q))
        (by rw [writes_to_run_mem_op, hsame]; exact hroom)
      rw [hstep, h1, writes_to_run_mem_op, hsame, hcount]
    | write q =>
      obtain ⟨hinc, hother, _, _⟩ := mem_swap_writepage_age env s q si
      by_cases hq : slot_of env s si q = j
      · subst hq
        have hcount : writes_to env s si (slot_of env s si q) (mem_op.write q :: rest)
            = writes_to env s si (slot_of env s si q) rest + 1 := by
          simp [writes_to, writes_slot]
        rw [hcount] at hroom
        have hnow : ((run_mem_op env si s (mem_op.write q)).swap_info si).slot_age
              (slot_of env s si q)
            = (s.swap_info si).slot_age (slot_of env s si q) + 1 := by
          simp only [run_mem_op, hinc]
          exact Nat.mod_eq_of_lt (by omega)
        have h1 := ih (run_mem_op env si s (mem_op.write q))
          (by rw [writes_to_run_mem_op, hnow]; omega)
        rw [hstep, h1, writes_to_run_mem_op, hnow, hcount]
        omega
      · have hj : j ≠ slot_of env s si q := fun h => hq h.symm
        have hcount : writes_to env s si j (mem_op.write q :: rest)
            = writes_to env s si j rest := by
          simp [writes_to, writes_slot, hq]
        rw [hcount] at hroom
        have hnow : ((run_mem_op env si s (mem_op.write q)).swap_info si).slot_age j
            = (s.swap_info si).slot_age j := by
          simp only [run_mem_op, hother j hj]
        have h1 := ih (run_mem_op env si s (mem_op.write q))
          (by rw [writes_to_run_mem_op, hnow]; exact hroom)
        rw [hstep, h1, writes_to_run_mem_op, hnow, hcount]

/-- Claim C7 as stated fails: a write does not always raise the age of its slot
by one.  On the aged example device, slot 2 holds the largest 32-bit age; the
write of page 1 wraps it to 0, so the age decreases.  The same happens at every
counter width: a slot at the largest age of the width is not raised by one. -/
theorem slot_age_wraps_counterexample :
    ¬ (∀ (env : Env) (s : State) (pg si : Nat),
        ((mem_swap_writepage env s pg si).swap_info si).slot_age (slot_of env s si pg)
          = (s.swap_info si).slot_age (slot_of env s si pg) + 1) ∧
    (demo_state_aged.swap_info 1).slot_age (slot_of demo_env demo_state_aged 1 1)
      = 4294967295 ∧
    ((mem_swap_writepage demo_env demo_state_aged 1 1).swap_info 1).slot_age
      (slot_of demo_env demo_state_aged 1 1) = 0 ∧
    (∀ env : Env,
      ((mem_swap_writepage env (demo_state_full env) 1 1).swap_info 1).slot_age
          (slot_of env (demo_state_full env) 1 1)
        ≠ ((demo_state_full env).swap_info 1).slot_age
          (slot_of env (demo_state_full env) 1 1) + 1) := by
  refine ⟨?_, by decide, by decide, ?_⟩
  · intro h
    have h1 := h demo_env demo_state_aged 1 1
    revert h1
    decide
  · intro env
    rw [(mem_swap_writepage_age env (demo_state_full env) 1 1).1]
    show (2 ^ env.SLOT_AGE_BITS - 1 + 1) % 2 ^ env.SLOT_AGE_BITS
      ≠ 2 ^ env.SLOT_AGE_BITS - 1 + 1
    have hpos : 0 < 2 ^ env.SLOT_AGE_BITS := Nat.two_pow_pos _
    rw [Nat.sub_add_cancel hpos, Nat.mod_self]
    omega

/-- Claim C7, amended: `mem_swap_writepage` sets the age of the slot the page is
mapped to to its successor in the width of the counter, which is exactly one
more whenever the age is below the largest value of that width, and leaves
every other age and the slot map as they were; `mem_swap_readpage` leaves the
devices (so every age) as they were; after any sequence of writes and reads on
the device that leaves room in the counter, the age of a slot is its initial
age plus the number of writes that landed in it, so it has not decreased. -/
theorem slot_age_bumped_once_per_write (env : Env) (s : State) (pg si : Nat) :
    ((mem_swap_writepage env s pg si).swap_info si).slot_age (slot_of env s si pg)
      = ((s.swap_info si).slot_age (slot_of env s si pg) + 1) % 2 ^ env.SLOT_AGE_BITS ∧
    ((s.swap_info si).slot_age (slot_of env s si pg) + 1 < 2 ^ env.SLOT_AGE_BITS →
      ((mem_swap_writepage env s pg si).swap_info si).slot_age (slot_of env s si pg)
        = (s.swap_info si).slot_age (slot_of env s si pg) + 1) ∧
    (∀ j, j ≠ slot_of env s si pg →
      ((mem_swap_writepage env s pg si).swap_info si).slot_age j
        = (s.swap_info si).slot_age j) ∧
    ((mem_swap_writepage env s pg si).swap_info si).slot_map = (s.swap_info si).slot_map ∧
    (mem_swap_readpage env s pg si).swap_info = s.swap_info ∧
    (∀ (ops : List mem_op) (j : Nat),
      (s.swap_info si).slot_age j + writes_to env s si j ops < 2 ^ env.SLOT_AGE_BITS →
      ((run_mem_ops env si s ops).swap_info si).slot_age j
        = (s.swap_info si).slot_age j + writes_to env s si j ops) ∧
    (∀ (ops : List mem_op) (j : Nat),
      (s.swap_info si).slot_age j + writes_to env s si j ops < 2 ^ env.SLOT_AGE_BITS →
      (s.swap_info si).slot_age j ≤ ((run_mem_ops env si s ops).swap_info si).slot_age j) := by
  obtain ⟨h1, h2, h3, _⟩ := mem_swap_writepage_age env s pg si
  refine ⟨h1, ?_, h2, h3, ?_, ?_, ?_⟩
  · intro hroom
    rw [h1]
    exact Nat.mod_eq_of_lt hroom
  · simp [mem_swap_readpage, emit, update_page]
  · intro ops j hroom
    exact run_mem_ops_age env si j ops s hroom
  · intro ops j hroom
    rw [run_mem_ops_age env si j ops s hroom]
    exact Nat.le_add_right _ _

/-- Scenario of C7: 4 slots of age 0 with 32-bit ages, page 1 at logical
offset 2 mapped to slot 2, written three times: slot 2 reaches age 3, the other
slots stay at 0; a single write raises slot 2 from 0 to 1. -/
theorem slot_age_bumped_once_per_write_witness :
    writes_to demo_env demo_state 1 2 [mem_op.write 1, mem_op.write 1, mem_op.write 1] = 3 ∧
    ((mem_swap_writepage demo_env demo_state 1 1).swap_info 1).slot_age 2 = 1 ∧
    ((run_mem_ops demo_env 1 demo_state
        [mem_op.write 1, mem_op.write 1, mem_op.write 1]).swap_info 1).slot_age 2 = 3 ∧
    ((run_mem_ops demo_env 1 demo_state
        [mem_op.write 1, mem_op.write 1, mem_op.write 1]).swap_info 1).slot_age 0 = 0 ∧
    ((run_mem_ops demo_env 1 demo_state
        [mem_op.write 1, mem_op.write 1, mem_op.write 1]).swap_info 1).slot_age 1 = 0 ∧
    ((run_mem_ops demo_env 1 demo_state
        [mem_op.write 1, mem_op.write 1, mem_op.write 1]).swap_info 1).slot_age 3 = 0 :=
  have h := (slot_age_bumped_once_per_write demo_env demo_state 1 1).2.2.2.2.2.1
    [mem_op.write 1, mem_op.write 1, mem_op.write 1]
  ⟨by decide, (slot_age_bumped_once_per_write demo_env demo_state 1 1).2.1 (by decide),
    h 2 (by decide), h 0 (by decide), h 1 (by decide), h 3 (by decide)⟩

/-! ## Operation counters -/

/-- Claim C8, the code evaluated on the example: `reset_swap_outs` zeroes both
counts and a block-path write-out raises `print_swap_outs` by one, but a
byte-addressable write-out (page 1) sets `writeback`, counts a `PSWPOUT` event
and leaves `print_swap_outs` where it was, and a byte-addressable read-in
(page 2) counts a `PSWPIN` event, returns 0 and leaves `print_swap_ins` where it
was. -/
theorem swap_counters_skip_mem_path :
    (∀ s : State, print_swap_outs (reset_swap_outs s).1 = 0 ∧
      print_swap_ins (reset_swap_outs s).1 = 0) ∧
    print_swap_outs (swap_writepage demo_env demo_state 0 demo_wbc).1
      = print_swap_outs demo_state + 1 ∧
    is_mem_swap demo_env demo_state 1 = true ∧
    Event.writeback_set 1 ∈ (swap_writepage demo_env demo_state 1 demo_wbc).1.trace ∧
    (swap_writepage demo_env demo_state 1 demo_wbc).1.pswpout = demo_state.pswpout + 1 ∧
    print_swap_outs (swap_writepage demo_env demo_state 1 demo_wbc).1
      = print_swap_outs demo_state ∧
    (swap_readpage demo_env demo_state 2).map (fun r => (r.2, r.1.pswpin, print_swap_ins r.1))
      = some (0, demo_state.pswpin + 1, print_swap_ins demo_state) := by
  refine ⟨fun s => ⟨rfl, rfl⟩, ?_, ?_, ?_, ?_, ?_, ?_⟩ <;> decide

/-! ## Byte-addressable write-out ordering -/

/-- Claim C9 as stated fails: it is not the case that every byte-addressable
write-out copies the page into its slot while the page is still locked.  For
page 1 of the example, locked on entry, the copy comes after the unlock. -/
theorem mem_write_copy_under_lock_counterexample :
    ¬ (∀ (env : Env) (s : State) (pg : Nat) (wbc : writeback_control),
        PageLocked s pg = true → env.try_to_free_swap s pg = false →
        is_mem_swap env s pg = true →
        copies_under_lock pg true
          ((swap_writepage env s pg wbc).1.trace.drop s.trace.length) = true) := by
  intro h
  have h1 := h demo_env demo_state 1 demo_wbc (by decide) (by decide) (by decide)
  revert h1
  decide

/-- Claim C9, amended: for a locked page on an `SWP_MEM` device that is not
stale, `swap_writepage` sets `writeback`, unlocks the page, then copies the
page into its slot (with `writeback` set and the page already unlocked), then
clears `writeback`; it returns 0 with the page unlocked, `writeback` false and
the slot holding the page contents. -/
theorem mem_write_out_ordering (env : Env) (s : State) (pg : Nat)
    (wbc : writeback_control)
    (_hlock : PageLocked s pg = true)
    (hfree : env.try_to_free_swap s pg = false)
    (hmem : is_mem_swap env s pg = true) :
    (swap_writepage env s pg wbc).2 = 0 ∧
    (swap_writepage env s pg wbc).1.trace
      = s.trace ++ [Event.writeback_set pg, Event.unlock pg,
          Event.copy_to_slot pg (slot_addr env (s.swap_info (mem_swap_page2info env s pg))
            (slot_of env s (mem_swap_page2info env s pg) pg)),
          Event.writeback_end pg] ∧
    copies_under_lock pg true
      ((swap_writepage env s pg wbc).1.trace.drop s.trace.length) = false ∧
    ((swap_writepage env s pg wbc).1.pages pg).locked = false ∧
    ((swap_writepage env s pg wbc).1.pages pg).writeback = false ∧
    (swap_writepage env s pg wbc).1.mem
        (slot_addr env (s.swap_info (mem_swap_page2info env s pg))
          (slot_of env s (mem_swap_page2info env s pg) pg))
      = (s.pages pg).data := by
  have htrace : (swap_writepage env s pg wbc).1.trace
      = s.trace ++ [Event.writeback_set pg, Event.unlock pg,
          Event.copy_to_slot pg (slot_addr env (s.swap_info (mem_swap_page2info env s pg))
            (slot_of env s (mem_swap_page2info env s pg) pg)),
          Event.writeback_end pg] := by
    simp [swap_writepage, hfree, hmem, mem_swap_writepage, mem_swap_page2info, page_private,
      slot_of, end_page_writeback, unlock_page, set_page_writeback, count_vm_event, emit,
      update_page]
  refine ⟨?_, htrace, ?_, ?_, ?_, ?_⟩
  · simp [swap_writepage, hfree, hmem]
  · rw [htrace]
    simp [copies_under_lock]
  · simp [swap_writepage, hfree, hmem, mem_swap_writepage, end_page_writeback, unlock_page,
      set_page_writeback, count_vm_event, emit, update_page]
  · simp [swap_writepage, hfree, hmem, mem_swap_writepage, end_page_writeback, unlock_page,
      set_page_writeback, count_vm_event, emit, update_page]
  · exact (swap_writepage_mem_effect env s pg wbc hfree hmem).1

/-- Witness for the amended C9: page 1 of the example. -/
theorem mem_write_out_ordering_witness :
    (swap_writepage demo_env demo_state 1 demo_wbc).2 = 0 ∧
    (swap_writepage demo_env demo_state 1 demo_wbc).1.trace
      = [Event.writeback_set 1, Event.unlock 1, Event.copy_to_slot 1 1056768,
          Event.writeback_end 1] ∧
    ((swap_writepage demo_env demo_state 1 demo_wbc).1.pages 1).locked = false ∧
    ((swap_writepage demo_env demo_state 1 demo_wbc).1.pages 1).writeback = false :=
  have h := mem_write_out_ordering demo_env demo_state 1 demo_wbc
    (by decide) (by decide) (by decide)
  ⟨h.1, h.2.1, h.2.2.2.1, h.2.2.2.2.1⟩

/-! ## Slot aging heap: invariant preservation -/

/-- Entries of the heap array after exchanging positions `i` and `j`. -/
theorem heap_swap_fst (heap index : Nat → Nat) (i j k : Nat) :
    (heap_swap heap index i j).1 k
      = if k = j then heap i else if k = i then heap j else heap k := by
  simp only [heap_swap, Function.update_apply]

/-- Entries of the position lookup after exchanging distinct positions `i`
and `j`. -/
theorem heap_swap_snd (heap index : Nat → Nat) (i j : Nat) (hij : i ≠ j) (s : Nat) :
    (heap_swap heap index i j).2 s
      = if s = heap i then j else if s = heap j then i else index s := by
  simp only [heap_swap, Function.update_apply]
  simp [hij]

/-- A position lookup that inverts the heap on the slots below `n` is also
inverted by it: every heap position below `n` holds a slot below `n` whose
recorded position is that position. -/
theorem index_inverse_heap (heap index : Nat → Nat) (n : Nat)
    (h : index_inverse heap index n) :
    ∀ i, i < n → heap i < n ∧ index (heap i) = i := by
  let f : Fin n → Fin n := fun s => ⟨index s.1, (h s.1 s.2).1⟩
  have hinj : Function.Injective f := by
    intro a b hab
    have h1 : index a.1 = index b.1 := congrArg Fin.val hab
    have h2 : heap (index a.1) = heap (index b.1) := by rw [h1]
    rw [(h a.1 a.2).2, (h b.1 b.2).2] at h2
    exact Fin.ext h2
  have hsurj : Function.Surjective f := Finite.injective_iff_surjective.mp hinj
  intro i hi
  obtain ⟨a, ha⟩ := hsurj ⟨i, hi⟩
  have hai : index a.1 = i := congrArg Fin.val ha
  have hh : heap i = a.1 := by rw [← hai]; exact (h a.1 a.2).2
  exact ⟨by rw [hh]; exact a.2, by rw [hh]; exact hai⟩

/-- Exchanging two distinct positions below `n` keeps the position lookup the
inverse of the heap. -/
theorem index_inverse_heap_swap (heap index : Nat → Nat) (n i j : Nat)
    (h : index_inverse heap index n) (hi : i < n) (hj : j < n) (hij : i ≠ j) :
    index_inverse (heap_swap heap index i j).1 (heap_swap heap index i j).2 n := by
  intro s hs
  rw [heap_swap_snd heap index i j hij s]
  by_cases h1 : s = heap i
  · subst h1
    simp [heap_swap_fst, hj]
  · by_cases h2 : s = heap j
    · subst h2
      simp [heap_swap_fst, hi, h1, hij]
    · have hsi : index s ≠ i := by
        intro e
        apply h1
        rw [← e, (h s hs).2]
      have hsj : index s ≠ j := by
        intro e
        apply h2
        rw [← e, (h s hs).2]
      simp [heap_swap_fst, h1, h2, hsi, hsj, h s hs]

/-- One level of `sift_down`: either the entry at `i` is no older than its
children and nothing changes, or it is exchanged with a youngest child `c`,
strictly younger than it, and sifting continues from `c`. -/
theorem sift_down_succ (age : Nat → Nat) (n fuel : Nat) (heap index : Nat → Nat) (i : Nat) :
    (sift_down age n (fuel + 1) heap index i = (heap, index) ∧
      (2 * i + 1 < n → age (heap i) ≤ age (heap (2 * i + 1))) ∧
      (2 * i + 2 < n → age (heap i) ≤ age (heap (2 * i + 2)))) ∨
    (∃ c, (c = 2 * i + 1 ∨ c = 2 * i + 2) ∧ c < n ∧ age (heap c) < age (heap i) ∧
      (∀ d, (d = 2 * i + 1 ∨ d = 2 * i + 2) → d < n → age (heap c) ≤ age (heap d)) ∧
      sift_down age n (fuel + 1) heap index i
        = sift_down age n fuel (heap_swap heap index i c).1 (heap_swap heap index i c).2 c) := by
  have hli : 2 * i + 1 ≠ i := by omega
  have hri : 2 * i + 2 ≠ i := by omega
  by_cases hl : 2 * i + 1 < n ∧ age (heap (2 * i + 1)) < age (heap i)
  · by_cases hr : 2 * i + 2 < n ∧ age (heap (2 * i + 2)) < age (heap (2 * i + 1))
    · right
      refine ⟨2 * i + 2, Or.inr rfl, hr.1, lt_trans hr.2 hl.2, ?_, ?_⟩
      · intro d hd _
        rcases hd with hd | hd
        · subst hd; exact le_of_lt hr.2
        · subst hd; exact le_refl _
      · simp [sift_down, hl, hr, hri]
    · right
      refine ⟨2 * i + 1, Or.inl rfl, hl.1, hl.2, ?_, ?_⟩
      · intro d hd hdn
        rcases hd with hd | hd
        · subst hd; exact le_refl _
        · subst hd
          exact Nat.le_of_not_lt (fun hlt => hr ⟨hdn, hlt⟩)
      · simp only [sift_down, hl, and_self, if_true, hr, if_false, hli]
  · by_cases hr : 2 * i + 2 < n ∧ age (heap (2 * i + 2)) < age (heap i)
    · right
      refine ⟨2 * i + 2, Or.inr rfl, hr.1, hr.2, ?_, ?_⟩
      · intro d hd hdn
        rcases hd with hd | hd
        · subst hd
          have h1 : age (heap i) ≤ age (heap (2 * i + 1)) :=
            Nat.le_of_not_lt (fun hlt => hl ⟨hdn, hlt⟩)
          exact le_trans (le_of_lt hr.2) h1
        · subst hd; exact le_refl _
      · simp only [sift_down, hl, if_false, hr, and_self, if_true, hri]
    · left
      refine ⟨?_, ?_, ?_⟩
      · simp only [sift_down, hl, if_false, hr, if_true]
      · intro hn
        exact Nat.le_of_not_lt (fun hlt => hl ⟨hn, hlt⟩)
      · intro hn
        exact Nat.le_of_not_lt (fun hlt => hr ⟨hn, hlt⟩)

/-- Exchanging the exempted position with a youngest, strictly younger child
moves the exemption to that child. -/
theorem heap_ordered_except_swap (age heap index : Nat → Nat) (n i c : Nat)
    (h : heap_ordered_except age heap n i)
    (hc : c = 2 * i + 1 ∨ c = 2 * i + 2) (hcn : c < n)
    (hlt : age (heap c) < age (heap i))
    (hmin : ∀ d, (d = 2 * i + 1 ∨ d = 2 * i + 2) → d < n → age (heap c) ≤ age (heap d)) :
    heap_ordered_except age (heap_swap heap index i c).1 n c := by
  have hic : i ≠ c := by omega
  have child : ∀ d, (d = 2 * i + 1 ∨ d = 2 * i + 2) → d < n →
      age (heap c) ≤ age ((heap_swap heap index i c).1 d) := by
    intro d hd hdn
    rw [heap_swap_fst]
    by_cases hdc : d = c
    · simp only [hdc, if_true]; exact le_of_lt hlt
    · have hdi : d ≠ i := by omega
      simp only [hdc, hdi, if_false]
      exact hmin d hd hdn
  constructor
  · intro j hjc
    by_cases hji : j = i
    · subst hji
      have hself : (heap_swap heap index j c).1 j = heap c := by
        rw [heap_swap_fst]; simp [hic]
      rw [hself]
      exact ⟨fun hn => child _ (Or.inl rfl) hn, fun hn => child _ (Or.inr rfl) hn⟩
    · have hself : (heap_swap heap index i c).1 j = heap j := by
        rw [heap_swap_fst]; simp [hjc, hji]
      rw [hself]
      have key : ∀ d, (d = 2 * j + 1 ∨ d = 2 * j + 2) → d < n → age (heap j) ≤ age (heap d) →
          age (heap j) ≤ age ((heap_swap heap index i c).1 d) := by
        intro d hd hdn hle
        have hdc : d ≠ c := by omega
        by_cases hdi : d = i
        · have hv : (heap_swap heap index i c).1 d = heap c := by
            rw [heap_swap_fst, hdi]; simp [hic]
          rw [hv]
          exact h.2 j c (by omega) hc hcn
        · have hv : (heap_swap heap index i c).1 d = heap d := by
            rw [heap_swap_fst]; simp [hdc, hdi]
          rw [hv]
          exact hle
      exact ⟨fun hn => key _ (Or.inl rfl) hn ((h.1 j hji).1 hn),
        fun hn => key _ (Or.inr rfl) hn ((h.1 j hji).2 hn)⟩
  · intro p d hp hd hdn
    have hpi : p = i := by omega
    subst hpi
    have hself : (heap_swap heap index p c).1 p = heap c := by
      rw [heap_swap_fst]; simp [hic]
    have hdc : d ≠ c := by omega
    have hdp : d ≠ p := by omega
    have hd2 : (heap_swap heap index p c).1 d = heap d := by
      rw [heap_swap_fst]; simp [hdc, hdp]
    rw [hself, hd2]
    have hcp : c ≠ p := fun e => hic e.symm
    rcases hd with hd | hd
    · subst hd; exact (h.1 c hcp).1 hdn
    · subst hd; exact (h.1 c hcp).2 hdn

/-- With enough fuel to reach the bottom, `sift_down` from the exempted
position yields a min-heap. -/
theorem sift_down_ordered (age : Nat → Nat) (n : Nat) :
    ∀ (fuel : Nat) (heap index : Nat → Nat) (i : Nat),
      heap_ordered_except age heap n i → n ≤ i + fuel →
      heap_ordered age (sift_down age n fuel heap index i).1 n := by
  intro fuel
  induction fuel with
  | zero =>
    intro heap index i h hf j _
    by_cases hji : j = i
    · subst hji
      exact ⟨fun hn => absurd hn (by omega), fun hn => absurd hn (by omega)⟩
    · exact h.1 j hji
  | succ fuel ih =>
    intro heap index i h hf
    rcases sift_down_succ age n fuel heap index i with ⟨heq, h1, h2⟩ | ⟨c, hc, hcn, hlt, hmin, heq⟩
    · rw [heq]
      intro j _
      by_cases hji : j = i
      · subst hji; exact ⟨h1, h2⟩
      · exact h.1 j hji
    · rw [heq]
      exact ih _ _ c (heap_ordered_except_swap age heap index n i c h hc hcn hlt hmin)
        (by omega)

/-- The position lookup stays the inverse of the heap through `sift_down`
started at a position below `n`. -/
theorem sift_down_index_inverse (age : Nat → Nat) (n : Nat) :
    ∀ (fuel : Nat) (heap index : Nat → Nat) (i : Nat),
      index_inverse heap index n → i < n →
      index_inverse (sift_down age n fuel heap index i).1
        (sift_down age n fuel heap index i).2 n := by
  intro fuel
  induction fuel with
  | zero => intro heap index i h _; exact h
  | succ fuel ih =>
    intro heap index i h hi
    rcases sift_down_succ age n fuel heap index i with ⟨heq, _, _⟩ | ⟨c, hc, hcn, _, _, heq⟩
    · rw [heq]; exact h
    · rw [heq]
      exact ih _ _ c (index_inverse_heap_swap heap index n i c h hi hcn (by omega)) hcn

/-- Exchanging the exempted position with its strictly older parent moves the
exemption to the parent. -/
theorem heap_ordered_except_up_swap (age heap index : Nat → Nat) (n i p : Nat)
    (h : heap_ordered_except_up age heap n i)
    (hip : i = 2 * p + 1 ∨ i = 2 * p + 2) (hin : i < n)
    (hlt : age (heap i) < age (heap p)) :
    heap_ordered_except_up age (heap_swap heap index i p).1 n p := by
  have hpi : p ≠ i := by omega
  have vp : (heap_swap heap index i p).1 p = heap i := by
    rw [heap_swap_fst]; simp
  have vi : (heap_swap heap index i p).1 i = heap p := by
    rw [heap_swap_fst]; simp [hpi.symm]
  have vo : ∀ k, k ≠ p → k ≠ i → (heap_swap heap index i p).1 k = heap k := by
    intro k hkp hki
    rw [heap_swap_fst]; simp [hkp, hki]
  constructor
  · intro j d hd hdn hdp
    by_cases hjp : j = p
    · rw [hjp] at hd ⊢
      rw [vp]
      by_cases hdi : d = i
      · rw [hdi, vi]; exact le_of_lt hlt
      · rw [vo d hdp hdi]
        exact le_trans (le_of_lt hlt) (h.1 p d hd hdn hdi)
    · by_cases hji : j = i
      · rw [hji] at hd ⊢
        rw [vi]
        have hdi : d ≠ i := by omega
        rw [vo d hdp hdi]
        exact h.2 p d hip hd hdn
      · rw [vo j hjp hji]
        have hdi : d ≠ i := by omega
        rw [vo d hdp hdi]
        exact h.1 j d hd hdn hdi
  · intro g c hg hc hcn
    have hgp : g ≠ p := by omega
    have hgi : g ≠ i := by omega
    have hcp : c ≠ p := by omega
    rw [vo g hgp hgi]
    have hgle : age (heap g) ≤ age (heap p) := h.1 g p hg (by omega) hpi
    by_cases hci : c = i
    · rw [hci, vi]; exact hgle
    · rw [vo c hcp hci]
      exact le_trans hgle (h.1 p c hc hcn hci)

/-- With enough fuel to reach the root, `sift_up` from the exempted position
yields a min-heap. -/
theorem sift_up_ordered (age : Nat → Nat) (n : Nat) :
    ∀ (fuel : Nat) (heap index : Nat → Nat) (i : Nat),
      heap_ordered_except_up age heap n i → i ≤ fuel → i < n →
      heap_ordered age (sift_up age fuel heap index i).1 n := by
  intro fuel
  induction fuel with
  | zero =>
    intro heap index i h hf _ j _
    exact ⟨fun hn => h.1 j _ (Or.inl rfl) hn (by omega),
      fun hn => h.1 j _ (Or.inr rfl) hn (by omega)⟩
  | succ fuel ih =>
    intro heap index i h hf hin
    by_cases hc : 0 < i ∧ age (heap i) < age (heap ((i - 1) / 2))
    · simp only [sift_up, if_pos hc]
      exact ih _ _ ((i - 1) / 2)
        (heap_ordered_except_up_swap age heap index n i ((i - 1) / 2) h (by omega) hin hc.2)
        (by omega) (by omega)
    · simp only [sift_up, if_neg hc]
      have hlink : ∀ j d, (d = 2 * j + 1 ∨ d = 2 * j + 2) → d < n →
          age (heap j) ≤ age (heap d) := by
        intro j d hd hdn
        by_cases hdi : d = i
        · have hj : (i - 1) / 2 = j := by omega
          have hnot : ¬ age (heap i) < age (heap j) := by
            intro hlt
            apply hc
            refine ⟨by omega, ?_⟩
            rw [hj]
            exact hlt
          rw [hdi]
          exact Nat.le_of_not_lt hnot
        · exact h.1 j d hd hdn hdi
      intro j _
      exact ⟨fun hn => hlink j _ (Or.inl rfl) hn, fun hn => hlink j _ (Or.inr rfl) hn⟩

/-- The position lookup stays the inverse of the heap through `sift_up` started
at a position below `n`. -/
theorem sift_up_index_inverse (age : Nat → Nat) (n : Nat) :
    ∀ (fuel : Nat) (heap index : Nat → Nat) (i : Nat),
      index_inverse heap index n → i < n →
      index_inverse (sift_up age fuel heap index i).1 (sift_up age fuel heap index i).2 n := by
  intro fuel
  induction fuel with
  | zero => intro heap index i h _; exact h
  | succ fuel ih =>
    intro heap index i h hi
    by_cases hc : 0 < i ∧ age (heap i) < age (heap ((i - 1) / 2))
    · simp only [sift_up, if_pos hc]
      exact ih _ _ ((i - 1) / 2)
        (index_inverse_heap_swap heap index n i ((i - 1) / 2) h hi (by omega) (by omega))
        (by omega)
    · simp only [sift_up, if_neg hc]
      exact h

/-- Giving one slot any new age and running `min_heapify` at that slot's heap
position turns a min-heap with inverse position lookup into a min-heap with
inverse position lookup for the new ages, whether the age went up or down. -/
theorem min_heapify_after_update (age heap index : Nat → Nat) (n slot v : Nat)
    (ho : heap_ordered age heap n) (hi : index_inverse heap index n) (hs : slot < n) :
    heap_ordered (Function.update age slot v)
      (min_heapify (Function.update age slot v) heap index n (index slot)).1 n ∧
    index_inverse
      (min_heapify (Function.update age slot v) heap index n (index slot)).1
      (min_heapify (Function.update age slot v) heap index n (index slot)).2 n := by
  have hb := index_inverse_heap heap index n hi
  obtain ⟨hpos, hhp⟩ := hi slot hs
  have hne : ∀ j, j < n → j ≠ index slot → heap j ≠ slot := by
    intro j hj hjp e
    apply hjp
    rw [← e, (hb j hj).2]
  have hsame : ∀ j, j < n → j ≠ index slot →
      Function.update age slot v (heap j) = age (heap j) := by
    intro j hj hjp
    exact Function.update_noteq (hne j hj hjp) _ _
  have hself : Function.update age slot v (heap (index slot)) = v := by
    rw [hhp]; exact Function.update_same _ _ _
  have hold : ∀ j d, (d = 2 * j + 1 ∨ d = 2 * j + 2) → d < n →
      age (heap j) ≤ age (heap d) := by
    intro j d hd hdn
    rcases hd with hd | hd
    · subst hd; exact (ho j (by omega)).1 hdn
    · subst hd; exact (ho j (by omega)).2 hdn
  by_cases hup : 0 < index slot ∧
      Function.update age slot v (heap (index slot))
        < Function.update age slot v (heap ((index slot - 1) / 2))
  · have hp : (index slot - 1) / 2 < n := by omega
    have hpne : (index slot - 1) / 2 ≠ index slot := by omega
    have hlt : v < age (heap ((index slot - 1) / 2)) := by
      have h2 := hup.2
      rw [hself, hsame _ hp hpne] at h2
      exact h2
    have hparent : age (heap ((index slot - 1) / 2)) ≤ age (heap (index slot)) :=
      hold _ _ (by omega) hpos
    have hex : heap_ordered_except_up (Function.update age slot v) heap n (index slot) := by
      constructor
      · intro j d hd hdn hdp
        rw [hsame d hdn hdp]
        by_cases hj : j = index slot
        · rw [hj] at hd ⊢
          rw [hself]
          exact le_trans (le_of_lt hlt) (le_trans hparent (hold _ d hd hdn))
        · rw [hsame j (by omega) hj]
          exact hold j d hd hdn
      · intro p c hpp hc hcn
        rw [hsame p (by omega) (by omega), hsame c hcn (by omega)]
        exact le_trans (hold p _ hpp hpos) (hold _ c hc hcn)
    simp only [min_heapify, if_pos hup]
    exact ⟨sift_up_ordered _ n (index slot) heap index (index slot) hex (le_refl _) hpos,
      sift_up_index_inverse _ n (index slot) heap index (index slot) hi hpos⟩
  · have hex : heap_ordered_except (Function.update age slot v) heap n (index slot) := by
      have hlink : ∀ j d, j ≠ index slot → (d = 2 * j + 1 ∨ d = 2 * j + 2) → d < n →
          Function.update age slot v (heap j) ≤ Function.update age slot v (heap d) := by
        intro j d hj hd hdn
        rw [hsame j (by omega) hj]
        by_cases hdp : d = index slot
        · have hjp : (index slot - 1) / 2 = j := by omega
          have hnot : ¬ v < age (heap j) := by
            intro hlt
            apply hup
            refine ⟨by omega, ?_⟩
            rw [hself, hjp, hsame j (by omega) hj]
            exact hlt
          rw [hdp, hself]
          exact Nat.le_of_not_lt hnot
        · rw [hsame d hdn hdp]
          exact hold j d hd hdn
      constructor
      · intro j hj
        exact ⟨fun hn => hlink j _ hj (Or.inl rfl) hn, fun hn => hlink j _ hj (Or.inr rfl) hn⟩
      · intro p c hpp hc hcn
        rw [hsame p (by omega) (by omega), hsame c hcn (by omega)]
        exact le_trans (hold p _ hpp hpos) (hold _ c hc hcn)
    simp only [min_heapify, if_neg hup]
    exact ⟨sift_down_ordered _ n n heap index (index slot) hex (by omega),
      sift_down_index_inverse _ n n heap index (index slot) hi hpos⟩

/-- A byte-addressable write to a slot in range keeps the device invariant,
also when the age increment wraps. -/
theorem mem_swap_writepage_heap_inv (env : Env) (s : State) (pg si : Nat)
    (hinv : heap_inv (s.swap_info si))
    (hslot : slot_of env s si pg < (s.swap_info si).max) :
    heap_inv ((mem_swap_writepage env s pg si).swap_info si) := by
  have h := min_heapify_after_update (s.swap_info si).slot_age (s.swap_info si).heap
    (s.swap_info si).index (s.swap_info si).max (slot_of env s si pg)
    (((s.swap_info si).slot_age (slot_of env s si pg) + 1) % 2 ^ env.SLOT_AGE_BITS)
    hinv.1 hinv.2 hslot
  simp only [slot_of] at h
  simp only [heap_inv, mem_swap_writepage, emit, Function.update_same]
  exact h

/-- A transfer does not change the slot count of the device. -/
theorem max_run_mem_op (env : Env) (s : State) (si : Nat) (op : mem_op) :
    ((run_mem_op env si s op).swap_info si).max = (s.swap_info si).max := by
  cases op with
  | write q => simp [run_mem_op, mem_swap_writepage, emit]
  | read q => simp [run_mem_op, mem_swap_readpage, emit, update_page]

/-- The device invariant holds after any sequence of transfers whose writes
land in slots in range. -/
theorem run_mem_ops_heap_inv (env : Env) (si : Nat) (ops : List mem_op) :
    ∀ s : State, heap_inv (s.swap_info si) →
      (∀ pg, mem_op.write pg ∈ ops → slot_of env s si pg < (s.swap_info si).max) →
      heap_inv ((run_mem_ops env si s ops).swap_info si) := by
  induction ops with
  | nil => intro s h _; exact h
  | cons op rest ih =>
    intro s hinv hr
    have hstep : run_mem_ops env si s (op :: rest)
        = run_mem_ops env si (run_mem_op env si s op) rest := rfl
    rw [hstep]
    apply ih
    · cases op with
      | write q =>
        exact mem_swap_writepage_heap_inv env s q si hinv
          (hr q (List.mem_cons_self _ _))
      | read q =>
        have hsame : (run_mem_op env si s (mem_op.read q)).swap_info = s.swap_info := by
          simp [run_mem_op, mem_swap_readpage, emit, update_page]
        rw [hsame]
        exact hinv
    · intro pg hpg
      rw [slot_of_run_mem_op, max_run_mem_op]
      exact hr pg (List.mem_cons_of_mem _ hpg)

/-- Claim C10: if the device's heap is a valid min-heap over `slot_age` and
`index` is the inverse of `heap`, then after `mem_swap_writepage` to a slot of
the device (age increment, in the width of the counter, followed by
`min_heapify` at the slot's position) both facts hold again for the updated
ages, and so they hold after any sequence of transfers whose writes go to slots
of the device. -/
theorem heap_property_after_writes (env : Env) (s : State) (si : Nat)
    (hinv : heap_inv (s.swap_info si)) :
    (∀ pg, slot_of env s si pg < (s.swap_info si).max →
      heap_inv ((mem_swap_writepage env s pg si).swap_info si)) ∧
    (∀ ops : List mem_op,
      (∀ pg, mem_op.write pg ∈ ops → slot_of env s si pg < (s.swap_info si).max) →
      heap_inv ((run_mem_ops env si s ops).swap_info si)) :=
  ⟨fun pg hslot => mem_swap_writepage_heap_inv env s pg si hinv hslot,
    fun ops hr => run_mem_ops_heap_inv env si ops s hinv hr⟩

/-- Scenario of C10: 4 slots of age 0; after three writes to slot 2 the
invariant holds and the heap root is a slot of age 0, not slot 2.  A single
write to slot 0, the root, sifts it to the bottom: the heap becomes
`[1, 3, 2, 0]` with positions `[3, 0, 2, 1]`, and the invariant holds.  On the
aged device, where the write to slot 2 wraps its age to 0, the slot is sifted
up to the root: the heap becomes `[2, 1, 0, 3]` and the invariant holds. -/
theorem heap_property_after_writes_witness :
    heap_inv (demo_state.swap_info 1) ∧
    heap_inv ((mem_swap_writepage demo_env demo_state 3 1).swap_info 1) ∧
    (List.range 4).map ((mem_swap_writepage demo_env demo_state 3 1).swap_info 1).heap
      = [1, 3, 2, 0] ∧
    (List.range 4).map ((mem_swap_writepage demo_env demo_state 3 1).swap_info 1).index
      = [3, 0, 2, 1] ∧
    heap_inv ((mem_swap_writepage demo_env demo_state_aged 1 1).swap_info 1) ∧
    (List.range 4).map ((mem_swap_writepage demo_env demo_state_aged 1 1).swap_info 1).slot_age
      = [5, 5, 0, 5] ∧
    (List.range 4).map ((mem_swap_writepage demo_env demo_state_aged 1 1).swap_info 1).heap
      = [2, 1, 0, 3] ∧
    (List.range 4).map ((mem_swap_writepage demo_env demo_state_aged 1 1).swap_info 1).index
      = [2, 1, 0, 3] ∧
    heap_inv ((run_mem_ops demo_env 1 demo_state
      [mem_op.write 1, mem_op.write 1, mem_op.write 1]).swap_info 1) ∧
    ((run_mem_ops demo_env 1 demo_state
        [mem_op.write 1, mem_op.write 1, mem_op.write 1]).swap_info 1).slot_age
      (((run_mem_ops demo_env 1 demo_state
        [mem_op.write 1, mem_op.write 1, mem_op.write 1]).swap_info 1).heap 0) = 0 ∧
    ((run_mem_ops demo_env 1 demo_state
        [mem_op.write 1, mem_op.write 1, mem_op.write 1]).swap_info 1).heap 0 ≠ 2 :=
  ⟨by decide,
    (heap_property_after_writes demo_env demo_state 1 (by decide)).1 3 (by decide),
    by decide, by decide,
    (heap_property_after_writes demo_env demo_state_aged 1 (by decide)).1 1 (by decide),
    by decide, by decide, by decide,
    (heap_property_after_writes demo_env demo_state 1 (by decide)).2
      [mem_op.write 1, mem_op.write 1, mem_op.write 1]
      (fun pg hpg => by
        have hq : pg = 1 := by simpa using hpg
        subst hq
        decide),
    by decide, by decide⟩

end PageIo
